import Mathlib

set_option maxRecDepth 40000

/-!
Verification of the wallet derivation and signing pipeline of
`src/Wasm-Blockchain/wasm-crypto/src/lib.rs`.

The Rust module composes standard primitives (SHA-256, Keccak-256, ECDSA over
secp256k1, BIP-39 mnemonic encoding) into a deterministic derivation pipeline.
The embedding below models:

* bytes as `List Nat` (each element a `u8` value `< 256`);
* SHA-256 and Keccak-256 concretely (the Rust code uses the `sha2` and
  `tiny_keccak` crates; the Lean functions are the standard algorithms and are
  checked against published test vectors further down);
* the secp256k1 compressed public key derivation concretely
  (`secp256k1CompressedPub`, checked against the generator-multiple vectors);
* the remaining library calls (`bip39::Mnemonic::from_entropy`,
  `sp_core::ecdsa` sign/verify) abstractly, as fields of a `CryptoPrims`
  structure, since their internals (the 2048-word list, RFC-6979 nonces) are
  not part of this repository.

An `sp_core::ecdsa::Pair` is represented by its 32-byte seed: `from_seed`
stores the seed and `to_raw_vec` returns exactly those bytes.  `from_seed`
panics (rather than returning an error) on an invalid scalar; no claim
exercises that case and the embedding treats pair construction as total.
`Reflect::set` marshaling failures are outside the specified core and are not
modelled.  The panic that `copy_from_slice` raises on a length mismatch in
`verify_signature` IS modelled (`VerifyOutcome.crash`), because claim C1 is
about exactly that code path.
-/

/-! ## Bytes and strings -/

abbrev Bytes := List Nat

/-- UTF-8 encoding of a single character (Rust `str::as_bytes` views). -/
def utf8EncodeChar (c : Char) : Bytes :=
  let n := c.toNat
  if n < 128 then [n]
  else if n < 2048 then [192 + n / 64, 128 + n % 64]
  else if n < 65536 then [224 + n / 4096, 128 + n / 64 % 64, 128 + n % 64]
  else [240 + n / 262144, 128 + n / 4096 % 64, 128 + n / 64 % 64, 128 + n % 64]

def bytesOfChars (cs : List Char) : Bytes := (cs.map utf8EncodeChar).flatten

/-- The UTF-8 bytes of a string, as Rust's `str::as_bytes` produces them. -/
def strBytes (s : String) : Bytes := bytesOfChars s.data

/-- Lowercase hex digit for a value `< 16` (Rust `hex::encode` is lowercase). -/
def hexDigitChar (n : Nat) : Char :=
  if n < 10 then Char.ofNat (48 + n) else Char.ofNat (87 + n)

/-- Two lowercase hex digits of one byte (the `% 256` records that the Rust
    input type is `u8`; it is the identity on actual byte values). -/
def hexEncodeByte (b : Nat) : List Char :=
  [hexDigitChar (b % 256 / 16), hexDigitChar (b % 16)]

/-- Model of Rust `hex::encode`. -/
def hexEncode (bs : Bytes) : String := String.mk (bs.map hexEncodeByte).flatten

def hexDigitVal (c : Char) : Option Nat :=
  if '0' ≤ c ∧ c ≤ '9' then some (c.toNat - 48)
  else if 'a' ≤ c ∧ c ≤ 'f' then some (c.toNat - 87)
  else if 'A' ≤ c ∧ c ≤ 'F' then some (c.toNat - 55)
  else none

/-- Model of Rust `hex::decode`: fails on odd length or a non-hex character. -/
def hexDecodeChars : List Char → Option Bytes
  | [] => some []
  | [_] => none
  | c1 :: c2 :: rest =>
    match hexDigitVal c1, hexDigitVal c2, hexDecodeChars rest with
    | some h, some l, some bs => some ((16 * h + l) :: bs)
    | _, _, _ => none

/-- The Unicode `White_Space` characters, as Rust `char::is_whitespace`
    recognises them. -/
def isRustWhitespace (c : Char) : Bool :=
  let n := c.toNat
  (9 ≤ n && n ≤ 13) || n == 32 || n == 133 || n == 160 || n == 5760 ||
  (8192 ≤ n && n ≤ 8202) || n == 8232 || n == 8233 || n == 8239 ||
  n == 8287 || n == 12288

/-- Accumulator-style splitter behind `strSplitWhitespace`. -/
def splitWsAux : List Char → List Char → List String
  | [], acc => if acc.isEmpty then [] else [String.mk acc.reverse]
  | c :: cs, acc =>
    if isRustWhitespace c then
      if acc.isEmpty then splitWsAux cs [] else String.mk acc.reverse :: splitWsAux cs []
    else splitWsAux cs (c :: acc)

/-- Model of Rust `str::split_whitespace`: the maximal non-whitespace runs,
    in order, with no empty tokens. -/
def strSplitWhitespace (s : String) : List String := splitWsAux s.data []

/-- Model of Rust `[&str]::join(" ")` (used on `mnemonic.words()`). -/
def joinWords : List String → String
  | [] => ""
  | [w] => w
  | w :: ws => w ++ " " ++ joinWords ws

/-! ## SHA-256 (FIPS 180-4), over byte lists -/

def m32 (x : Nat) : Nat := x % 4294967296

def rotr32 (k x : Nat) : Nat := m32 ((x >>> k) ||| (x <<< (32 - k)))

def smallSigma0 (x : Nat) : Nat := (rotr32 7 x) ^^^ (rotr32 18 x) ^^^ (x >>> 3)
def smallSigma1 (x : Nat) : Nat := (rotr32 17 x) ^^^ (rotr32 19 x) ^^^ (x >>> 10)
def bigSigma0 (x : Nat) : Nat := (rotr32 2 x) ^^^ (rotr32 13 x) ^^^ (rotr32 22 x)
def bigSigma1 (x : Nat) : Nat := (rotr32 6 x) ^^^ (rotr32 11 x) ^^^ (rotr32 25 x)

def sha256K : List Nat :=
  [1116352408, 1899447441, 3049323471, 3921009573,
   961987163, 1508970993, 2453635748, 2870763221,
   3624381080, 310598401, 607225278, 1426881987,
   1925078388, 2162078206, 2614888103, 3248222580,
   3835390401, 4022224774, 264347078, 604807628,
   770255983, 1249150122, 1555081692, 1996064986,
   2554220882, 2821834349, 2952996808, 3210313671,
   3336571891, 3584528711, 113926993, 338241895,
   666307205, 773529912, 1294757372, 1396182291,
   1695183700, 1986661051, 2177026350, 2456956037,
   2730485921, 2820302411, 3259730800, 3345764771,
   3516065817, 3600352804, 4094571909, 275423344,
   430227734, 506948616, 659060556, 883997877,
   958139571, 1322822218, 1537002063, 1747873779,
   1955562222, 2024104815, 2227730452, 2361852424,
   2428436474, 2756734187, 3204031479, 3329325298]

/-- Fixed-width big-endian byte encoding of a natural number. -/
def natToBytesBE : Nat → Nat → Bytes
  | 0, _ => []
  | k + 1, n => natToBytesBE k (n / 256) ++ [n % 256]

/-- Fixed-width little-endian byte encoding of a natural number. -/
def natToBytesLE : Nat → Nat → Bytes
  | 0, _ => []
  | k + 1, n => n % 256 :: natToBytesLE k (n / 256)

def bytesToWordsBE : Bytes → List Nat
  | b0 :: b1 :: b2 :: b3 :: rest =>
    (b0 * 16777216 + b1 * 65536 + b2 * 256 + b3) :: bytesToWordsBE rest
  | _ => []

/-- Split into chunks of `size` bytes; `fuel` bounds the recursion and any
    value `≥` the number of chunks is enough. -/
def chunksAux (size : Nat) : Nat → Bytes → List Bytes
  | 0, _ => []
  | _ + 1, [] => []
  | fuel + 1, bs => bs.take size :: chunksAux size fuel (bs.drop size)

/-- SHA-256 padding: `0x80`, zeros to 56 mod 64, 8-byte big-endian bit length. -/
def sha256Pad (msg : Bytes) : Bytes :=
  msg ++ 128 :: List.replicate ((119 - msg.length % 64) % 64) 0 ++
    natToBytesBE 8 (8 * msg.length)

/-- Extend the 16-word schedule to 64 words (`fuel` = 48 steps). -/
def sha256Extend : Nat → List Nat → List Nat
  | 0, w => w
  | k + 1, w =>
    let t := w.length
    sha256Extend k (w ++ [m32 (smallSigma1 (w.getD (t - 2) 0) + w.getD (t - 7) 0 +
      smallSigma0 (w.getD (t - 15) 0) + w.getD (t - 16) 0)])

/-- The eight 32-bit working variables `a` through `h`. -/
abbrev Sha256State := Nat × Nat × Nat × Nat × Nat × Nat × Nat × Nat

def sha256Compress : List (Nat × Nat) → Sha256State → Sha256State
  | [], st => st
  | (k, w) :: rest, (a, b, c, d, e, f, g, h) =>
    let t1 := m32 (h + bigSigma1 e + ((e &&& f) ^^^ ((4294967295 - e) &&& g)) + k + w)
    let t2 := m32 (bigSigma0 a + ((a &&& b) ^^^ (a &&& c) ^^^ (b &&& c)))
    sha256Compress rest (m32 (t1 + t2), a, b, c, m32 (d + t1), e, f, g)

def sha256Block (st : Sha256State) (blk : Bytes) : Sha256State :=
  let w := sha256Extend 48 (bytesToWordsBE blk)
  match st, sha256Compress (sha256K.zip w) st with
  | (a, b, c, d, e, f, g, h), (a', b', c', d', e', f', g', h') =>
    (m32 (a + a'), m32 (b + b'), m32 (c + c'), m32 (d + d'),
     m32 (e + e'), m32 (f + f'), m32 (g + g'), m32 (h + h'))

def sha256H0 : Sha256State :=
  (1779033703, 3144134277, 1013904242, 2773480762,
   1359893119, 2600822924, 528734635, 1541459225)

/-- SHA-256 digest (32 bytes) of a byte list. -/
def sha256 (msg : Bytes) : Bytes :=
  let padded := sha256Pad msg
  match (chunksAux 64 (padded.length + 1) padded).foldl sha256Block sha256H0 with
  | (a, b, c, d, e, f, g, h) =>
    natToBytesBE 4 a ++ natToBytesBE 4 b ++ natToBytesBE 4 c ++ natToBytesBE 4 d ++
    natToBytesBE 4 e ++ natToBytesBE 4 f ++ natToBytesBE 4 g ++ natToBytesBE 4 h

/-! ## Keccak-256 (the original Keccak padding, as `tiny_keccak::Keccak::v256`) -/

def m64 (x : Nat) : Nat := x % 18446744073709551616

def rotl64 (k x : Nat) : Nat := m64 ((x <<< k) ||| (x >>> (64 - k)))

def keccakRC : List Nat :=
  [1, 32898, 9223372036854808714,
   9223372039002292224, 32907, 2147483649,
   9223372039002292353, 9223372036854808585, 138,
   136, 2147516425, 2147483658,
   2147516555, 9223372036854775947, 9223372036854808713,
   9223372036854808579, 9223372036854808578, 9223372036854775936,
   32778, 9223372039002259466, 9223372039002292353,
   9223372036854808704, 2147483649, 9223372039002292232]

/-- Rotation offsets, one row per `y`, giving lane `x + 5 * y` at row `y`,
    column `x`. -/
def rhoOffsetRows : List (List Nat) :=
  [[0, 1, 62, 28, 27],
   [36, 44, 6, 55, 20],
   [3, 10, 43, 25, 39],
   [41, 45, 15, 21, 8],
   [18, 2, 61, 56, 14]]

def rhoOffsets : List Nat := rhoOffsetRows.flatten

def keccakTheta (A : List Nat) : List Nat :=
  let C := (List.range 5).map fun x =>
    (A.getD x 0) ^^^ (A.getD (x + 5) 0) ^^^ (A.getD (x + 10) 0) ^^^
    (A.getD (x + 15) 0) ^^^ (A.getD (x + 20) 0)
  let D := (List.range 5).map fun x =>
    (C.getD ((x + 4) % 5) 0) ^^^ rotl64 1 (C.getD ((x + 1) % 5) 0)
  (List.range 25).map fun i => (A.getD i 0) ^^^ (D.getD (i % 5) 0)

/-- Combined rho rotation and pi lane permutation: the output lane at
    `(X, Y)` is the rotated input lane at `x = (X + 3Y) % 5`, `y = X`. -/
def keccakRhoPi (A : List Nat) : List Nat :=
  (List.range 25).map fun j =>
    let x := (j % 5 + 3 * (j / 5)) % 5
    let y := j % 5
    rotl64 (rhoOffsets.getD (x + 5 * y) 0) (A.getD (x + 5 * y) 0)

def keccakChi (B : List Nat) : List Nat :=
  (List.range 25).map fun j =>
    let x := j % 5
    let y := j / 5
    (B.getD j 0) ^^^
      ((18446744073709551615 - B.getD ((x + 1) % 5 + 5 * y) 0) &&&
        B.getD ((x + 2) % 5 + 5 * y) 0)

def keccakRound (A : List Nat) (rc : Nat) : List Nat :=
  let C := keccakChi (keccakRhoPi (keccakTheta A))
  C.set 0 ((C.getD 0 0) ^^^ rc)

def keccakF (A : List Nat) : List Nat := keccakRC.foldl keccakRound A

/-- Keccak `pad10*1` with domain byte `0x01` (Keccak, not SHA-3), rate 136. -/
def keccakPad (msg : Bytes) : Bytes :=
  let padLen := 136 - msg.length % 136
  if padLen == 1 then msg ++ [129]
  else msg ++ 1 :: List.replicate (padLen - 2) 0 ++ [128]

/-- Group 8 bytes little-endian into one 64-bit lane each. -/
def bytesToLanes : Bytes → List Nat
  | b0 :: b1 :: b2 :: b3 :: b4 :: b5 :: b6 :: b7 :: rest =>
    (b0 + 256 * (b1 + 256 * (b2 + 256 * (b3 + 256 * (b4 + 256 * (b5 + 256 *
      (b6 + 256 * b7))))))) :: bytesToLanes rest
  | _ => []

def absorbBlock (st : List Nat) (blk : Bytes) : List Nat :=
  let lanes := bytesToLanes blk
  keccakF ((List.range 25).map fun i => (st.getD i 0) ^^^ (lanes.getD i 0))

/-- Keccak-256 digest (32 bytes) of a byte list. -/
def keccak256 (msg : Bytes) : Bytes :=
  let padded := keccakPad msg
  let st := (chunksAux 136 (padded.length + 1) padded).foldl absorbBlock
    (List.replicate 25 0)
  ((st.take 4).map (natToBytesLE 8)).flatten

/-! ## secp256k1 compressed public key derivation

`sp_core::ecdsa::Pair::public` is libsecp256k1's `G * secret`, serialised in
SEC1 compressed form (33 bytes, leading `0x02`/`0x03` parity byte).  Points
are computed in Jacobian coordinates over the base field. -/

def secpP : Nat :=
  0xFFFFFFFFFFFFFFFFFFFFFFFFFFFFFFFFFFFFFFFFFFFFFFFFFFFFFFFEFFFFFC2F

def secpN : Nat :=
  0xFFFFFFFFFFFFFFFFFFFFFFFFFFFFFFFEBAAEDCE6AF48A03BBFD25E8CD0364141

def secpGx : Nat :=
  0x79BE667EF9DCBBAC55A06295CE870B07029BFCDB2DCE28D959F2815B16F81798

def secpGy : Nat :=
  0x483ADA7726A3C4655DA4FBFC0E1108A8FD17B448A68554199C47D08FFB10D4B8

def fAdd (a b : Nat) : Nat := (a + b) % secpP
def fSub (a b : Nat) : Nat := (a % secpP + (secpP - b % secpP)) % secpP
def fMul (a b : Nat) : Nat := a * b % secpP

/-- Fast modular exponentiation; `fuel` bounds the recursion depth and any
    value above the bit length of `e` is enough. -/
def powModAux : Nat → Nat → Nat → Nat → Nat
  | 0, _, _, _ => 1
  | fuel + 1, b, e, p =>
    if e == 0 then 1 % p
    else
      let h := powModAux fuel (b * b % p) (e / 2) p
      if e % 2 == 1 then h * b % p else h

def powMod (b e p : Nat) : Nat := powModAux 257 (b % p) e p

def fInv (a : Nat) : Nat := powMod a (secpP - 2) secpP

/-- Jacobian doubling (`a = 0` curve); the point at infinity has `Z = 0`. -/
def jacDouble : Nat × Nat × Nat → Nat × Nat × Nat
  | (X1, Y1, Z1) =>
    if Z1 == 0 || Y1 == 0 then (1, 1, 0)
    else
      let A := fMul X1 X1
      let B := fMul Y1 Y1
      let C := fMul B B
      let D := fMul 2 (fSub (fSub (fMul (fAdd X1 B) (fAdd X1 B)) A) C)
      let E := fMul 3 A
      let X3 := fSub (fMul E E) (fMul 2 D)
      (X3, fSub (fMul E (fSub D X3)) (fMul 8 C), fMul 2 (fMul Y1 Z1))

/-- Mixed Jacobian + affine addition. -/
def jacAddAffine : Nat × Nat × Nat → Nat × Nat → Nat × Nat × Nat
  | (X1, Y1, Z1), (x2, y2) =>
    if Z1 == 0 then (x2 % secpP, y2 % secpP, 1)
    else
      let Z1Z1 := fMul Z1 Z1
      let U2 := fMul x2 Z1Z1
      let S2 := fMul y2 (fMul Z1 Z1Z1)
      if U2 == X1 then
        if S2 == Y1 then jacDouble (X1, Y1, Z1) else (1, 1, 0)
      else
        let H := fSub U2 X1
        let HH := fMul H H
        let I := fMul 4 HH
        let J := fMul H I
        let rr := fMul 2 (fSub S2 Y1)
        let V := fMul X1 I
        let X3 := fSub (fSub (fMul rr rr) J) (fMul 2 V)
        (X3, fSub (fMul rr (fSub V X3)) (fMul 2 (fMul Y1 J)),
          fMul 2 (fMul Z1 H))

/-- Left-to-right double-and-add ladder for `k * G`; processes bit `i - 1`
    at fuel value `i`, starting from 256. -/
def mulGAux : Nat → Nat × Nat × Nat → Nat → Nat × Nat × Nat
  | 0, acc, _ => acc
  | i + 1, acc, k =>
    let acc2 := jacDouble acc
    mulGAux i (if (k >>> i) % 2 == 1 then jacAddAffine acc2 (secpGx, secpGy) else acc2) k

def mulG (k : Nat) : Nat × Nat × Nat := mulGAux 256 (1, 1, 0) k

def jacToAffine : Nat × Nat × Nat → Option (Nat × Nat)
  | (X, Y, Z) =>
    if Z == 0 then none
    else
      let zi := fInv Z
      let zi2 := fMul zi zi
      some (fMul X zi2, fMul Y (fMul zi zi2))

/-- The 32-byte seed read as a big-endian secret scalar. -/
def scalarOfSeed (seed : Bytes) : Nat := seed.foldl (fun a b => 256 * a + b) 0

/-- SEC1 compressed encoding of `seed * G`.  libsecp256k1 rejects a zero or
    out-of-range scalar (`sp_core`'s `from_seed` panics there); no claim
    exercises that case and the all-zero fallback below is unreachable in
    every theorem of this file. -/
def secp256k1CompressedPub (seed : Bytes) : Bytes :=
  let k := scalarOfSeed seed
  if k == 0 || secpN ≤ k then List.replicate 33 0
  else
    match jacToAffine (mulG k) with
    | none => List.replicate 33 0
    | some (x, y) => (if y % 2 == 0 then 2 else 3) :: natToBytesBE 32 x

/-! ## The abstract crypto interface

An `sp_core::ecdsa::Pair` is its 32-byte seed (`to_raw_vec` returns the seed
bytes).  `publicOfSeed` models `pair.public().as_ref()` (33 bytes
compressed), `ecdsaSign seed msg` models `pair.sign(msg).0` (65 bytes) and
`ecdsaVerify sig msg pub` models `ecdsa::Pair::verify(&sig, msg, &pub)`.
`mnemonicFromEntropy` models `bip39::Mnemonic::from_entropy` followed by
`mnemonic.words()`. -/

structure CryptoPrims where
  mnemonicFromEntropy : Bytes → Option (List String)
  publicOfSeed : Bytes → Bytes
  ecdsaSign : Bytes → Bytes → Bytes
  ecdsaVerify : Bytes → Bytes → Bytes → Bool

/-- Facts about the library primitives used by the theorems below, all true
    of `bip39` and `sp_core::ecdsa`: compressed public keys are 33 bytes with
    a `0x02`/`0x03` parity prefix, signatures are 65 bytes, and 128 bits of
    entropy encode to 12 whitespace-free non-empty words. -/
def PrimsWF (P : CryptoPrims) : Prop :=
  (∀ s, (P.publicOfSeed s).length = 33) ∧
  (∀ s, (P.publicOfSeed s).headD 0 = 2 ∨ (P.publicOfSeed s).headD 0 = 3) ∧
  (∀ s b, b ∈ P.publicOfSeed s → b < 256) ∧
  (∀ s m, (P.ecdsaSign s m).length = 65) ∧
  (∀ s m b, b ∈ P.ecdsaSign s m → b < 256) ∧
  (∀ e ws, P.mnemonicFromEntropy e = some ws →
    ws.length = 12 ∧ ∀ w ∈ ws, w.data ≠ [] ∧ ∀ c ∈ w.data, isRustWhitespace c = false)

/-! ## The exported records and functions (`lib.rs`) -/

/-- The JS object assembled by the two wallet-generation flows
    (fields `mnemonic`, `publicKey`, `privateKey`, `address`, `chainType`). -/
structure WalletRecord where
  mnemonic : String
  publicKey : String
  privateKey : String
  address : String
  chainType : String
deriving DecidableEq, Repr

/-- The JS object assembled by `decrypt_and_generate_mnemonic`
    (fields `mnemonic`, `public_key`, `private_key`, `address`, `success`,
    `chain_type`). -/
structure DecryptRecord where
  mnemonic : String
  publicKey : String
  privateKey : String
  address : String
  success : Bool
  chainType : String
deriving DecidableEq, Repr

/-- Outcome of `verify_signature`, including the Rust panic that
    `copy_from_slice` raises when the decoded signature is not 65 bytes. -/
inductive VerifyOutcome where
  | ok (success : Bool) (statusMessage : String)
  | err (msg : String)
  | crash
deriving DecidableEq, Repr

/-- Models Rust `s.starts_with("0x")` (bytes `0x30 0x78`, equivalently the
    first two characters). -/
def startsWith0x (s : String) : Bool :=
  match s.data with
  | '0' :: 'x' :: _ => true
  | _ => false

def isAsciiAlphanumChar (c : Char) : Bool :=
  ('0' ≤ c && c ≤ '9') || ('a' ≤ c && c ≤ 'z') || ('A' ≤ c && c ≤ 'Z')

/-- `lib.rs` line 37: the device-id validation error message. -/
def deviceIdError (n : Nat) : String :=
  "WASM: Device ID must be exactly 10 alphanumeric characters, got " ++
    toString n ++ " characters with invalid format"

/-- `lib.rs` lines 279 and 497: the mnemonic word-count error message. -/
def wordCountError (n : Nat) : String :=
  "WASM: Mnemonic must contain exactly 12 words, got " ++ toString n

/-- Model of Rust `str::to_lowercase`.  Rust applies full Unicode lowercasing;
    every chain-type string this module compares against is ASCII, where the
    two coincide. -/
def asciiToLowerChar (c : Char) : Char :=
  if 'A' ≤ c ∧ c ≤ 'Z' then Char.ofNat (c.toNat + 32) else c

def rustToLowercase (s : String) : String := String.mk (s.data.map asciiToLowerChar)

/-- `lib.rs` lines 46-51 and 288-293: empty or case-insensitive "ethereum"
    is replaced by "ethereum"; anything else is kept verbatim. -/
def normalizeChainType (chainType : String) : String :=
  if chainType == "" || rustToLowercase chainType == "ethereum" then "ethereum"
  else chainType

/-- `lib.rs` lines 608-627.  The source indexes `public_key[0]`, which would
    panic on an empty slice; every call site passes the 33-byte compressed
    key, so `headD` is a faithful total rendering. -/
def generate_ethereum_address (publicKey : Bytes) : String :=
  let publicKey := if publicKey.headD 0 == 4 then publicKey.tail else publicKey
  let hash := keccak256 publicKey
  "0x" ++ hexEncode (hash.drop 12)

/-- The `(public_key, private_key, address)` triple of the `"ethereum"` match
    arm (`lib.rs` lines 104-134): `0x04`-prefixed hex public key, `0x`-prefixed
    hex seed, Keccak address of the compressed key bytes. -/
def ethereumKeyTriple (P : CryptoPrims) (seed : Bytes) : String × String × String :=
  let publicKeyBytes := P.publicOfSeed seed
  ("0x" ++ hexEncode (4 :: publicKeyBytes),
   "0x" ++ hexEncode seed,
   generate_ethereum_address publicKeyBytes)

/-- The triple of the `"polkadot" | "kusama"` arm and of the identical `_`
    fallback arm (`lib.rs` lines 135-175): bare hex of the compressed public
    key, bare hex of the seed, and the hex compressed key again as address. -/
def compressedHexTriple (P : CryptoPrims) (seed : Bytes) : String × String × String :=
  (hexEncode (P.publicOfSeed seed),
   hexEncode seed,
   hexEncode (P.publicOfSeed seed))

/-- The `match chain_type.to_lowercase().as_str()` dispatch shared by both
    wallet-generation flows (`lib.rs` lines 103-175 and 307-379). -/
def keyTripleFor (P : CryptoPrims) (chainType : String) (seed : Bytes) :
    String × String × String :=
  if rustToLowercase chainType == "ethereum" then ethereumKeyTriple P seed
  else if rustToLowercase chainType == "polkadot" || rustToLowercase chainType == "kusama" then
    compressedHexTriple P seed
  else compressedHexTriple P seed

/-- `lib.rs` lines 27-265 (`generate_wallet_from_device_id`), logging and
    `Reflect::set` marshaling omitted.  Rust `len()` is the UTF-8 byte
    length. -/
def generate_wallet_from_device_id (P : CryptoPrims) (deviceId chainType : String) :
    Except String WalletRecord :=
  if (strBytes deviceId).length != 10 || !(deviceId.data.all isAsciiAlphanumChar) then
    .error (deviceIdError (strBytes deviceId).length)
  else
    let chainType := normalizeChainType chainType
    let entropy := (sha256 (strBytes deviceId)).take 16
    match P.mnemonicFromEntropy entropy with
    | none => .error "WASM: Failed to generate mnemonic"
    | some ws =>
      let mnemonicWords := joinWords ws
      let seed := sha256 (strBytes mnemonicWords)
      let triple := keyTripleFor P chainType seed
      .ok { mnemonic := mnemonicWords, publicKey := triple.1,
            privateKey := triple.2.1, address := triple.2.2, chainType }

/-- `lib.rs` lines 268-469 (`generate_wallet_from_mnemonic`). -/
def generate_wallet_from_mnemonic (P : CryptoPrims) (mnemonicWords chainType : String) :
    Except String WalletRecord :=
  let words := strSplitWhitespace mnemonicWords
  if words.length != 12 then .error (wordCountError words.length)
  else
    let chainType := normalizeChainType chainType
    let seed := sha256 (strBytes mnemonicWords)
    let triple := keyTripleFor P chainType seed
    .ok { mnemonic := mnemonicWords, publicKey := triple.1,
          privateKey := triple.2.1, address := triple.2.2, chainType }

/-- `lib.rs` lines 472-606 (`decrypt_and_generate_mnemonic`): empty-input
    check, word-count check, then the Ethereum-style derivation with a
    `success` flag and chain type fixed to "ethereum". -/
def decrypt_and_generate_mnemonic (P : CryptoPrims) (encryptedWords : String) :
    Except String DecryptRecord :=
  if encryptedWords == "" then .error "WASM: Input is empty"
  else
    let words := strSplitWhitespace encryptedWords
    if words.length != 12 then .error (wordCountError words.length)
    else
      let seed := sha256 (strBytes encryptedWords)
      let publicKeyBytes := P.publicOfSeed seed
      .ok { mnemonic := encryptedWords,
            publicKey := "0x" ++ hexEncode (4 :: publicKeyBytes),
            privateKey := "0x" ++ hexEncode seed,
            address := generate_ethereum_address publicKeyBytes,
            success := true, chainType := "ethereum" }

/-- `lib.rs` lines 630-670 (`sign_message`).  `from_seed_slice` fails on a
    wrong-length slice; its scalar-validity failure is not modelled (seeds in
    scope are hash outputs).  The Rust error messages append the foreign
    error's display text, which is not modelled. -/
def sign_message (P : CryptoPrims) (privateKey message : String) :
    Except String String :=
  if !(startsWith0x privateKey) || (strBytes privateKey).length != 66 then
    .error ("WASM: Invalid private key format: " ++ privateKey)
  else
    match hexDecodeChars (privateKey.data.drop 2) with
    | none => .error "WASM: Failed to decode private key"
    | some privateKeyBytes =>
      if privateKeyBytes.length != 32 then .error "WASM: Failed to create key pair"
      else .ok ("0x" ++ hexEncode (P.ecdsaSign privateKeyBytes (strBytes message)))

/-- `lib.rs` lines 672-769 (`verify_signature`).  The signature copy
    `signature_array.copy_from_slice(&signature_bytes)` has no length guard
    in the source and panics unless exactly 65 bytes were decoded; that panic
    is `VerifyOutcome.crash`. -/
def verify_signature (P : CryptoPrims) (publicKey message signature : String) :
    VerifyOutcome :=
  if !(startsWith0x publicKey) then
    .err ("WASM: Public key must start with 0x prefix: " ++ publicKey)
  else
    match hexDecodeChars (publicKey.data.drop 2) with
    | none => .err "WASM: Failed to decode public key"
    | some publicKeyBytes =>
      if publicKeyBytes.length < 33 then
        .err ("WASM: Public key too short: " ++ toString publicKeyBytes.length ++ " bytes")
      else
        let publicKeyArray := publicKeyBytes.drop (publicKeyBytes.length - 33)
        if !(startsWith0x signature) then
          .err ("WASM: Invalid signature format: " ++ signature)
        else
          match hexDecodeChars (signature.data.drop 2) with
          | none => .err "WASM: Failed to decode signature"
          | some signatureBytes =>
            if signatureBytes.length != 65 then .crash
            else
              let isValid := P.ecdsaVerify signatureBytes (strBytes message) publicKeyArray
              .ok isValid (if isValid then "Signature is valid" else "Signature is invalid")

/-! ## Concrete instantiations of the abstract primitives -/

/-- Force a byte list to exactly 32 bytes of `u8` values. -/
def clamp32 (s : Bytes) : Bytes :=
  ((s.take 32).map (· % 256)) ++ List.replicate (32 - (s.take 32).length) 0

/-- A 12-word stand-in for the bip39 encoder's output. -/
def dummyWords : List String := List.replicate 12 "abc"

/-- A computable model of the library primitives used to instantiate the
    universally-quantified theorems at concrete inputs: the "public key" is
    a `0x02` parity byte over the clamped seed, a "signature" is the clamped
    seed followed by a `0x00` byte and the Keccak-256 of the message, and
    verification recomputes the expected signature from the transmitted
    public key.  It satisfies `PrimsWF` and the sign/verify round-trip
    equations at every concrete point the witnesses use. -/
def dummyPrims : CryptoPrims where
  mnemonicFromEntropy := fun _ => some dummyWords
  publicOfSeed := fun seed => 2 :: clamp32 seed
  ecdsaSign := fun seed msg => clamp32 seed ++ 0 :: keccak256 msg
  ecdsaVerify := fun sig msg pub => sig == pub.tail ++ 0 :: keccak256 msg

/-- The primitives with the real secp256k1 public-key derivation (signing and
    verification are never reached by the theorems stated over these). -/
def secpPrims : CryptoPrims where
  mnemonicFromEntropy := fun _ => some dummyWords
  publicOfSeed := secp256k1CompressedPub
  ecdsaSign := fun _ _ => []
  ecdsaVerify := fun _ _ _ => false

/-! ## Basic facts about the byte and string utilities -/

/-- Boolean check for a lowercase hex digit. -/
def isHexDigitChar (c : Char) : Bool :=
  ('0' ≤ c && c ≤ '9') || ('a' ≤ c && c ≤ 'f')

theorem natToBytesBE_length (k : Nat) : ∀ n, (natToBytesBE k n).length = k := by
  induction k with
  | zero => intro n; rfl
  | succ k ih => intro n; simp [natToBytesBE, ih]

theorem natToBytesBE_lt (k : Nat) : ∀ n, ∀ b ∈ natToBytesBE k n, b < 256 := by
  induction k with
  | zero => intro n b hb; simp [natToBytesBE] at hb
  | succ k ih =>
    intro n b hb
    simp only [natToBytesBE, List.mem_append, List.mem_singleton] at hb
    rcases hb with hb | rfl
    · exact ih _ b hb
    · exact Nat.mod_lt _ (by omega)

theorem natToBytesLE_length (k : Nat) : ∀ n, (natToBytesLE k n).length = k := by
  induction k with
  | zero => intro n; rfl
  | succ k ih => intro n; simp [natToBytesLE, ih]

theorem natToBytesLE_lt (k : Nat) : ∀ n, ∀ b ∈ natToBytesLE k n, b < 256 := by
  induction k with
  | zero => intro n b hb; simp [natToBytesLE] at hb
  | succ k ih =>
    intro n b hb
    simp only [natToBytesLE, List.mem_cons] at hb
    rcases hb with rfl | hb
    · exact Nat.mod_lt _ (by omega)
    · exact ih _ b hb

theorem hexEncode_data (bs : Bytes) :
    (hexEncode bs).data = (bs.map hexEncodeByte).flatten := rfl

theorem hexEncode_nil : hexEncode [] = "" := rfl

theorem hexEncode_cons (b : Nat) (bs : Bytes) :
    (hexEncode (b :: bs)).data = hexEncodeByte b ++ (hexEncode bs).data := by
  simp [hexEncode_data]

theorem hexEncode_length (bs : Bytes) : (hexEncode bs).length = 2 * bs.length := by
  show ((bs.map hexEncodeByte).flatten).length = 2 * bs.length
  induction bs with
  | nil => rfl
  | cons b t ih => simp only [List.map_cons, List.flatten_cons, List.length_append,
      List.length_cons, ih, hexEncodeByte, List.length_cons, List.length_nil]; omega

theorem hexEncodeByte_mod (b : Nat) : hexEncodeByte b = hexEncodeByte (b % 256) := by
  simp [hexEncodeByte, Nat.mod_mod_of_dvd b (by norm_num : (16 : Nat) ∣ 256)]

theorem hexEncodeByte_props : ∀ b, b < 256 →
    (hexEncodeByte b).all isHexDigitChar = true ∧
    (hexEncodeByte b).all (fun c => c.toNat < 128) = true := by decide

theorem hexEncode_chars (bs : Bytes) :
    ∀ c ∈ (hexEncode bs).data, isHexDigitChar c = true ∧ c.toNat < 128 := by
  induction bs with
  | nil => intro c hc; simp [hexEncode_data] at hc
  | cons b t ih =>
    intro c hc
    rw [hexEncode_cons] at hc
    rcases List.mem_append.mp hc with hc | hc
    · have h := hexEncodeByte_props (b % 256) (Nat.mod_lt _ (by omega))
      rw [hexEncodeByte_mod] at hc
      exact ⟨List.all_eq_true.mp h.1 c hc, by
        have := List.all_eq_true.mp h.2 c hc; simpa using this⟩
    · exact ih c hc

theorem hexDigit_pair_val : ∀ b, b < 256 →
    hexDigitVal (hexDigitChar (b / 16)) = some (b / 16) ∧
    hexDigitVal (hexDigitChar (b % 16)) = some (b % 16) := by decide

theorem hexDecode_encode_cons (b : Nat) (hb : b < 256) (cs : List Char) :
    hexDecodeChars (hexEncodeByte b ++ cs) =
      (hexDecodeChars cs).map (fun t => b :: t) := by
  obtain ⟨h1, h2⟩ := hexDigit_pair_val b hb
  have hmod : b % 256 = b := Nat.mod_eq_of_lt hb
  simp only [hexEncodeByte, hmod, List.cons_append, List.nil_append]
  show (match hexDigitVal (hexDigitChar (b / 16)), hexDigitVal (hexDigitChar (b % 16)),
      hexDecodeChars cs with
    | some h, some l, some bs => some ((16 * h + l) :: bs)
    | _, _, _ => none) = (hexDecodeChars cs).map (fun t => b :: t)
  rw [h1, h2]
  cases hexDecodeChars cs with
  | none => rfl
  | some t => simp [Nat.div_add_mod]

theorem hexDecode_hexEncode (bs : Bytes) (h : ∀ b ∈ bs, b < 256) :
    hexDecodeChars (hexEncode bs).data = some bs := by
  induction bs with
  | nil => rfl
  | cons b t ih =>
    rw [hexEncode_cons, hexDecode_encode_cons b (h b (by simp)) _,
      ih (fun x hx => h x (by simp [hx]))]
    rfl

theorem utf8EncodeChar_ascii (c : Char) (h : c.toNat < 128) :
    utf8EncodeChar c = [c.toNat] := by
  simp [utf8EncodeChar, h]

theorem bytesOfChars_append (xs ys : List Char) :
    bytesOfChars (xs ++ ys) = bytesOfChars xs ++ bytesOfChars ys := by
  simp [bytesOfChars]

theorem strBytes_append (a b : String) :
    strBytes (a ++ b) = strBytes a ++ strBytes b := by
  simp [strBytes, String.data_append, bytesOfChars_append]

theorem bytesOfChars_ascii_length (cs : List Char) (h : ∀ c ∈ cs, c.toNat < 128) :
    (bytesOfChars cs).length = cs.length := by
  induction cs with
  | nil => rfl
  | cons c t ih =>
    simp only [bytesOfChars, List.map_cons, List.flatten_cons, List.length_append,
      utf8EncodeChar_ascii c (h c (by simp))]
    have := ih (fun x hx => h x (by simp [hx]))
    simp only [bytesOfChars] at this
    simp [this]
    omega

theorem strBytes_hexEncode_length (bs : Bytes) :
    (strBytes (hexEncode bs)).length = 2 * bs.length := by
  have h : (strBytes (hexEncode bs)).length = (hexEncode bs).data.length :=
    bytesOfChars_ascii_length _ (fun c hc => (hexEncode_chars bs c hc).2)
  rw [h]
  exact hexEncode_length bs

/-! ## Output shape of the hash functions -/

theorem sha256_length (msg : Bytes) : (sha256 msg).length = 32 := by
  rcases hst : (chunksAux 64 ((sha256Pad msg).length + 1) (sha256Pad msg)).foldl
    sha256Block sha256H0 with ⟨a, b, c, d, e, f, g, h⟩
  simp [sha256, hst, natToBytesBE_length]

theorem sha256_lt (msg : Bytes) : ∀ x ∈ sha256 msg, x < 256 := by
  rcases hst : (chunksAux 64 ((sha256Pad msg).length + 1) (sha256Pad msg)).foldl
    sha256Block sha256H0 with ⟨a, b, c, d, e, f, g, h⟩
  intro x hx
  simp only [sha256, hst, List.mem_append] at hx
  rcases hx with ((((((hx | hx) | hx) | hx) | hx) | hx) | hx) | hx <;>
    exact natToBytesBE_lt 4 _ x hx

theorem keccakRound_length (A : List Nat) (rc : Nat) :
    (keccakRound A rc).length = 25 := by
  simp [keccakRound, keccakChi]

theorem foldl_keccakRound_length (l : List Nat) :
    ∀ A : List Nat, A.length = 25 → ((l.foldl keccakRound A)).length = 25 := by
  induction l with
  | nil => intro A h; exact h
  | cons x t ih => intro A h; exact ih _ (keccakRound_length _ _)

theorem absorbBlock_length (st : List Nat) (blk : Bytes) :
    (absorbBlock st blk).length = 25 := by
  simp only [absorbBlock, keccakF]
  exact foldl_keccakRound_length _ _ (by simp)

theorem foldl_absorbBlock_length (bl : List Bytes) :
    ∀ st : List Nat, st.length = 25 → ((bl.foldl absorbBlock st)).length = 25 := by
  induction bl with
  | nil => intro st h; exact h
  | cons x t ih => intro st h; exact ih _ (absorbBlock_length _ _)

theorem flatten_const_length {α : Type} (L : List (List α)) (k : Nat)
    (h : ∀ x ∈ L, x.length = k) : L.flatten.length = k * L.length := by
  induction L with
  | nil => simp
  | cons x t ih =>
    simp only [List.flatten_cons, List.length_append, h x (by simp),
      ih (fun y hy => h y (by simp [hy])), List.length_cons]
    ring

theorem keccak256_length (msg : Bytes) : (keccak256 msg).length = 32 := by
  have h25 := foldl_absorbBlock_length
    (chunksAux 136 ((keccakPad msg).length + 1) (keccakPad msg))
    (List.replicate 25 0) (by simp)
  simp only [keccak256]
  rw [flatten_const_length _ 8 ?_]
  · rw [List.length_map, List.length_take, h25]
    decide
  · intro x hx
    rcases List.mem_map.mp hx with ⟨y, _, rfl⟩
    exact natToBytesLE_length 8 y

theorem keccak256_lt (msg : Bytes) : ∀ x ∈ keccak256 msg, x < 256 := by
  intro x hx
  simp only [keccak256] at hx
  rcases List.mem_flatten.mp hx with ⟨l, hl, hxl⟩
  rcases List.mem_map.mp hl with ⟨y, _, rfl⟩
  exact natToBytesLE_lt 8 y x hxl

/-! ## The well-formedness of `dummyPrims` -/

theorem clamp32_length (s : Bytes) : (clamp32 s).length = 32 := by
  simp only [clamp32, List.length_append, List.length_map, List.length_replicate,
    List.length_take]
  omega

theorem clamp32_lt (s : Bytes) : ∀ b ∈ clamp32 s, b < 256 := by
  intro b hb
  simp only [clamp32, List.mem_append, List.mem_map, List.mem_replicate] at hb
  rcases hb with ⟨y, _, rfl⟩ | ⟨_, rfl⟩
  · exact Nat.mod_lt _ (by omega)
  · omega

theorem dummyPrims_wf : PrimsWF dummyPrims := by
  refine ⟨?_, ?_, ?_, ?_, ?_, ?_⟩
  · intro s; simp [dummyPrims, clamp32_length]
  · intro s; left; rfl
  · intro s b hb
    simp only [dummyPrims, List.mem_cons] at hb
    rcases hb with rfl | hb
    · omega
    · exact clamp32_lt s b hb
  · intro s m; simp [dummyPrims, clamp32_length, keccak256_length]
  · intro s m b hb
    simp only [dummyPrims, List.mem_append, List.mem_cons] at hb
    rcases hb with hb | rfl | hb
    · exact clamp32_lt s b hb
    · omega
    · exact keccak256_lt m b hb
  · intro e ws h
    simp only [dummyPrims, Option.some.injEq] at h
    subst h
    decide

/-! ## Splitting the space-joined mnemonic recovers the words -/

theorem splitWsAux_nonws (u : List Char) (hu : ∀ c ∈ u, isRustWhitespace c = false) :
    ∀ (rest acc : List Char),
      splitWsAux (u ++ rest) acc = splitWsAux rest (u.reverse ++ acc) := by
  induction u with
  | nil => intro rest acc; simp
  | cons c t ih =>
    intro rest acc
    have hc : isRustWhitespace c = false := hu c (by simp)
    simp only [List.cons_append, splitWsAux, hc, Bool.false_eq_true, if_false,
      List.append_eq]
    rw [ih (fun x hx => hu x (by simp [hx])) rest (c :: acc)]
    simp

theorem splitWsAux_final (u : List Char) (hu : ∀ c ∈ u, isRustWhitespace c = false)
    (acc : List Char) : splitWsAux u acc = splitWsAux [] (u.reverse ++ acc) := by
  simpa using splitWsAux_nonws u hu [] acc

/-- Splitting `joinWords ws` on whitespace recovers `ws` exactly, provided
    each word is non-empty and whitespace-free (true of the bip39 word
    list). -/
theorem splitWs_joinWords (ws : List String)
    (h : ∀ w ∈ ws, w.data ≠ [] ∧ ∀ c ∈ w.data, isRustWhitespace c = false) :
    strSplitWhitespace (joinWords ws) = ws := by
  induction ws with
  | nil => rfl
  | cons w rest ih =>
    cases rest with
    | nil =>
      show splitWsAux w.data [] = [w]
      rw [splitWsAux_final w.data (h w (by simp)).2 []]
      have hne : (w.data.reverse ++ []).isEmpty = false := by
        simp [List.isEmpty_iff, (h w (by simp)).1]
      simp only [splitWsAux, hne, Bool.false_eq_true, if_false]
      simp
    | cons w2 rest2 =>
      show splitWsAux (w ++ " " ++ joinWords (w2 :: rest2)).data [] = w :: w2 :: rest2
      have hdata : (w ++ " " ++ joinWords (w2 :: rest2)).data =
          w.data ++ (' ' :: (joinWords (w2 :: rest2)).data) := by
        simp [String.data_append]
      rw [hdata, splitWsAux_nonws w.data (h w (by simp)).2 _ []]
      have hsp : isRustWhitespace ' ' = true := rfl
      have hne : (w.data.reverse ++ []).isEmpty = false := by
        simp [List.isEmpty_iff, (h w (by simp)).1]
      simp only [splitWsAux, hsp, if_true, hne, Bool.false_eq_true, if_false]
      have ih' := ih (fun x hx => h x (by simp [hx]))
      unfold strSplitWhitespace at ih'
      rw [ih']
      simp

/-! ## Characterisations of the three generation flows -/

/-- The original chain-type argument values that reach the `"ethereum"`
    match arm: the empty string and case-insensitive "ethereum". -/
def chainBranchIsEthereum (chain : String) : Bool :=
  chain == "" || rustToLowercase chain == "ethereum"

theorem normalizeChainType_eth (chain : String)
    (hcb : chainBranchIsEthereum chain = true) :
    normalizeChainType chain = "ethereum" := by
  unfold chainBranchIsEthereum at hcb
  unfold normalizeChainType
  rw [hcb]
  simp

theorem normalizeChainType_of_not_eth (chain : String)
    (hcb : chainBranchIsEthereum chain = false) :
    normalizeChainType chain = chain := by
  unfold chainBranchIsEthereum at hcb
  unfold normalizeChainType
  rw [hcb]
  simp

theorem keyTripleFor_eth (P : CryptoPrims) (seed : Bytes) (chain : String)
    (hcb : chainBranchIsEthereum chain = true) :
    keyTripleFor P (normalizeChainType chain) seed = ethereumKeyTriple P seed := by
  rw [normalizeChainType_eth chain hcb]
  unfold keyTripleFor
  rw [show (rustToLowercase "ethereum" == "ethereum") = true from by decide]
  simp

theorem keyTripleFor_not_eth (P : CryptoPrims) (seed : Bytes) (chain : String)
    (hcb : chainBranchIsEthereum chain = false) :
    keyTripleFor P (normalizeChainType chain) seed = compressedHexTriple P seed := by
  rw [normalizeChainType_of_not_eth chain hcb]
  have heth : (rustToLowercase chain == "ethereum") = false := by
    unfold chainBranchIsEthereum at hcb
    cases hh : (chain == "") <;> cases hh2 : (rustToLowercase chain == "ethereum") <;>
      simp_all
  unfold keyTripleFor
  rw [heth]
  cases h2 : (rustToLowercase chain == "polkadot" || rustToLowercase chain == "kusama") <;> simp

/-- What a successful `generate_wallet_from_device_id` call returns. -/
theorem device_flow_ok {P : CryptoPrims} {dev chain : String} {w : WalletRecord}
    (h : generate_wallet_from_device_id P dev chain = .ok w) :
    ((strBytes dev).length != 10 || !(dev.data.all isAsciiAlphanumChar)) = false ∧
    ∃ ws, P.mnemonicFromEntropy ((sha256 (strBytes dev)).take 16) = some ws ∧
      w.mnemonic = joinWords ws ∧
      w.chainType = normalizeChainType chain ∧
      w.publicKey = (keyTripleFor P (normalizeChainType chain)
        (sha256 (strBytes (joinWords ws)))).1 ∧
      w.privateKey = (keyTripleFor P (normalizeChainType chain)
        (sha256 (strBytes (joinWords ws)))).2.1 ∧
      w.address = (keyTripleFor P (normalizeChainType chain)
        (sha256 (strBytes (joinWords ws)))).2.2 := by
  simp only [generate_wallet_from_device_id] at h
  split at h
  · exact absurd h (by simp)
  · next hvalid =>
    refine ⟨by simpa using hvalid, ?_⟩
    split at h
    · exact absurd h (by simp)
    · next ws hm =>
      refine ⟨ws, hm, ?_⟩
      obtain rfl : _ = w := Except.ok.inj h
      exact ⟨rfl, rfl, rfl, rfl, rfl⟩

/-- The success direction of the device-id flow: a valid device id and a
    successful mnemonic encoding produce the assembled record. -/
theorem device_flow_of_valid (P : CryptoPrims) (dev chain : String) (ws : List String)
    (hvalid : ((strBytes dev).length != 10 || !(dev.data.all isAsciiAlphanumChar)) = false)
    (hws : P.mnemonicFromEntropy ((sha256 (strBytes dev)).take 16) = some ws) :
    generate_wallet_from_device_id P dev chain = .ok
      { mnemonic := joinWords ws,
        publicKey := (keyTripleFor P (normalizeChainType chain)
          (sha256 (strBytes (joinWords ws)))).1,
        privateKey := (keyTripleFor P (normalizeChainType chain)
          (sha256 (strBytes (joinWords ws)))).2.1,
        address := (keyTripleFor P (normalizeChainType chain)
          (sha256 (strBytes (joinWords ws)))).2.2,
        chainType := normalizeChainType chain } := by
  simp only [generate_wallet_from_device_id, hvalid, Bool.false_eq_true, if_false, hws]

/-- What a successful `generate_wallet_from_mnemonic` call returns. -/
theorem mnemonic_flow_ok {P : CryptoPrims} {s chain : String} {w : WalletRecord}
    (h : generate_wallet_from_mnemonic P s chain = .ok w) :
    (strSplitWhitespace s).length = 12 ∧
    w.mnemonic = s ∧
    w.chainType = normalizeChainType chain ∧
    w.publicKey = (keyTripleFor P (normalizeChainType chain) (sha256 (strBytes s))).1 ∧
    w.privateKey = (keyTripleFor P (normalizeChainType chain) (sha256 (strBytes s))).2.1 ∧
    w.address = (keyTripleFor P (normalizeChainType chain) (sha256 (strBytes s))).2.2 := by
  simp only [generate_wallet_from_mnemonic] at h
  split at h
  · exact absurd h (by simp)
  · next hlen =>
    obtain rfl : _ = w := Except.ok.inj h
    refine ⟨by simpa using hlen, rfl, rfl, rfl, rfl, rfl⟩

/-- `generate_wallet_from_mnemonic` succeeds on any 12-token input. -/
theorem mnemonic_flow_of_12 (P : CryptoPrims) (s chain : String)
    (h : (strSplitWhitespace s).length = 12) :
    generate_wallet_from_mnemonic P s chain =
      .ok { mnemonic := s,
            publicKey := (keyTripleFor P (normalizeChainType chain)
              (sha256 (strBytes s))).1,
            privateKey := (keyTripleFor P (normalizeChainType chain)
              (sha256 (strBytes s))).2.1,
            address := (keyTripleFor P (normalizeChainType chain)
              (sha256 (strBytes s))).2.2,
            chainType := normalizeChainType chain } := by
  simp only [generate_wallet_from_mnemonic, h]
  simp

/-- `generate_wallet_from_mnemonic` fails with the word-count message on any
    input that does not split into 12 tokens. -/
theorem mnemonic_flow_of_not_12 (P : CryptoPrims) (s chain : String)
    (h : (strSplitWhitespace s).length ≠ 12) :
    generate_wallet_from_mnemonic P s chain =
      .error (wordCountError (strSplitWhitespace s).length) := by
  simp only [generate_wallet_from_mnemonic]
  rw [if_pos]
  simpa using h

/-! ## Test vectors pinning the concrete primitives to the standards -/

theorem sha256_vector_abc :
    hexEncode (sha256 (strBytes "abc")) =
      "ba7816bf8f01cfea414140de5dae2223b00361a396177a9cb410ff61f20015ad" := by
  decide

theorem sha256_vector_empty :
    hexEncode (sha256 []) =
      "e3b0c44298fc1c149afbf4c8996fb92427ae41e4649b934ca495991b7852b855" := by
  decide

theorem keccak256_vector_empty :
    hexEncode (keccak256 []) =
      "c5d2460186f7233c927e7db2dcc703c0e500b653ca82273b7bfad8045d85a470" := by
  decide

theorem keccak256_vector_abc :
    hexEncode (keccak256 (strBytes "abc")) =
      "4e03657aea45a94fc7d47ba826c8d667c0d1e6e33a64a036ec44f58fa12d6c45" := by
  decide

theorem secp256k1_vector_one :
    hexEncode (secp256k1CompressedPub (natToBytesBE 32 1)) =
      "0279be667ef9dcbbac55a06295ce870b07029bfcdb2dce28d959f2815b16f81798" := by
  decide

theorem secp256k1_vector_two :
    hexEncode (secp256k1CompressedPub (natToBytesBE 32 2)) =
      "02c6047f9441ed7d6d3045406e95c07cd85c778e4b8cef3ca7abac09b95c709ee5" := by
  decide

theorem secp256k1_vector_three :
    hexEncode (secp256k1CompressedPub (natToBytesBE 32 3)) =
      "02f9308a019258c31049344f85f89d5229b531c845836f99b08601f113bce036f9" := by
  decide

/-! ## Key-string format checkers -/

/-- `0x` followed by exactly 64 lowercase hex digits. -/
def isPrivateKeyFormat (s : String) : Bool :=
  match s.data with
  | '0' :: 'x' :: rest => rest.length == 64 && rest.all isHexDigitChar
  | _ => false

/-- Exactly 64 lowercase hex digits, no prefix. -/
def isBareKeyFormat (s : String) : Bool :=
  s.data.length == 64 && s.data.all isHexDigitChar

theorem data_0x_append (s : String) : ("0x" ++ s).data = '0' :: 'x' :: s.data := by
  rw [String.data_append]
  rfl

theorem hexEncode_data_length (bs : Bytes) : (hexEncode bs).data.length = 2 * bs.length :=
  hexEncode_length bs

theorem isPrivateKeyFormat_hex (seed : Bytes) (h : seed.length = 32) :
    isPrivateKeyFormat ("0x" ++ hexEncode seed) = true := by
  unfold isPrivateKeyFormat
  rw [data_0x_append]
  show ((hexEncode seed).data.length == 64 && (hexEncode seed).data.all isHexDigitChar) = true
  rw [hexEncode_data_length, h]
  simp only [Nat.reduceMul, beq_self_eq_true, Bool.true_and, List.all_eq_true]
  intro c hc
  exact (hexEncode_chars seed c hc).1

theorem isBareKeyFormat_hex (seed : Bytes) (h : seed.length = 32) :
    isBareKeyFormat (hexEncode seed) = true := by
  unfold isBareKeyFormat
  rw [hexEncode_data_length, h]
  simp only [Nat.reduceMul, beq_self_eq_true, Bool.true_and, List.all_eq_true]
  intro c hc
  exact (hexEncode_chars seed c hc).1

/-! ## Claim C1 -/

/-- Claim C1 (code bug): with a public key that passes its checks and a
    `0x`-prefixed valid-hex signature decoding to 2 bytes, `verify_signature`
    panics (the unguarded `copy_from_slice` into `[u8; 65]`) instead of
    returning the descriptive error the claim requires; with a 65-byte
    signature it does proceed to ECDSA verification. -/
theorem c1_short_signature_crashes :
    verify_signature dummyPrims
      "0x000000000000000000000000000000000000000000000000000000000000000000"
      "hello" "0x0000" = VerifyOutcome.crash ∧
    verify_signature dummyPrims
      "0x000000000000000000000000000000000000000000000000000000000000000000"
      "hello"
      ("0x0000000000000000000000000000000000000000000000000000000000000000000000000000000000000000000000000000000000000000000000000000000000")
      = VerifyOutcome.ok false "Signature is invalid" := by
  constructor
  · decide
  · decide

/-! ## Claim C2 -/

/-- Claim C2 counterexample: the device-id flow with chain type "polkadot"
    succeeds, yet its private key field is NOT `0x` + 64 hex digits (the
    non-Ethereum match arms hex-encode the raw seed with no `0x` prefix). -/
theorem c2_counterexample :
    (generate_wallet_from_device_id dummyPrims "ABCDEF1234" "polkadot").toOption.map
      (fun w => isPrivateKeyFormat w.privateKey) = some false := by
  decide

/-- Claim C2 (amended): in every flow the private key is the hex-encoded
    32-byte seed; on the Ethereum path (empty or case-insensitive "ethereum"
    selector, and always in the decrypt flow) it carries the `0x` prefix and
    is `0x` + 64 hex digits, while the polkadot/kusama/unrecognized arms emit
    the bare 64 hex digits with no prefix. -/
theorem c2_private_key_format (P : CryptoPrims) (dev s chain : String)
    (wd wm : WalletRecord) (d : DecryptRecord)
    (hd : generate_wallet_from_device_id P dev chain = .ok wd)
    (hm : generate_wallet_from_mnemonic P s chain = .ok wm)
    (hdec : decrypt_and_generate_mnemonic P s = .ok d) :
    (if chainBranchIsEthereum chain then
      isPrivateKeyFormat wd.privateKey = true ∧ isPrivateKeyFormat wm.privateKey = true
     else
      isBareKeyFormat wd.privateKey = true ∧ isBareKeyFormat wm.privateKey = true) ∧
    isPrivateKeyFormat d.privateKey = true := by
  obtain ⟨hvalid, ws, hws, hmn, hct, hpk, hsk, had⟩ := device_flow_ok hd
  obtain ⟨hlen, hmnm, hctm, hpkm, hskm, hadm⟩ := mnemonic_flow_ok hm
  constructor
  · cases hcb : chainBranchIsEthereum chain with
    | true =>
      simp only [if_true]
      constructor
      · rw [hsk, keyTripleFor_eth P _ chain hcb]
        exact isPrivateKeyFormat_hex _ (sha256_length _)
      · rw [hskm, keyTripleFor_eth P _ chain hcb]
        exact isPrivateKeyFormat_hex _ (sha256_length _)
    | false =>
      simp only [Bool.false_eq_true, if_false]
      constructor
      · rw [hsk, keyTripleFor_not_eth P _ chain hcb]
        exact isBareKeyFormat_hex _ (sha256_length _)
      · rw [hskm, keyTripleFor_not_eth P _ chain hcb]
        exact isBareKeyFormat_hex _ (sha256_length _)
  · -- the decrypt flow always uses the Ethereum-style format
    simp only [decrypt_and_generate_mnemonic] at hdec
    split at hdec
    · exact absurd hdec (by simp)
    · split at hdec
      · exact absurd hdec (by simp)
      · obtain rfl : _ = d := Except.ok.inj hdec
        exact isPrivateKeyFormat_hex _ (sha256_length _)

/-- Witness for C2: all three flows evaluated at concrete inputs with the
    "polkadot" selector. -/
theorem c2_witness :
    ∃ wd wm d,
      generate_wallet_from_device_id dummyPrims "ABCDEF1234" "polkadot" = .ok wd ∧
      generate_wallet_from_mnemonic dummyPrims "a a a a a a a a a a a a" "polkadot" = .ok wm ∧
      decrypt_and_generate_mnemonic dummyPrims "a a a a a a a a a a a a" = .ok d ∧
      ((if chainBranchIsEthereum "polkadot" then
          isPrivateKeyFormat wd.privateKey = true ∧ isPrivateKeyFormat wm.privateKey = true
        else
          isBareKeyFormat wd.privateKey = true ∧ isBareKeyFormat wm.privateKey = true) ∧
        isPrivateKeyFormat d.privateKey = true) := by
  cases h1 : generate_wallet_from_device_id dummyPrims "ABCDEF1234" "polkadot" with
  | error e =>
    have hok : (generate_wallet_from_device_id dummyPrims "ABCDEF1234" "polkadot").toOption.isSome
        = true := by decide
    rw [h1] at hok
    simp [Except.toOption] at hok
  | ok wd =>
    cases h2 : generate_wallet_from_mnemonic dummyPrims "a a a a a a a a a a a a" "polkadot" with
    | error e =>
      have hok : (generate_wallet_from_mnemonic dummyPrims "a a a a a a a a a a a a"
          "polkadot").toOption.isSome = true := by decide
      rw [h2] at hok
      simp [Except.toOption] at hok
    | ok wm =>
      cases h3 : decrypt_and_generate_mnemonic dummyPrims "a a a a a a a a a a a a" with
      | error e =>
        have hok : (decrypt_and_generate_mnemonic dummyPrims
            "a a a a a a a a a a a a").toOption.isSome = true := by decide
        rw [h3] at hok
        simp [Except.toOption] at hok
      | ok d =>
        exact ⟨wd, wm, d, rfl, rfl, rfl,
          c2_private_key_format dummyPrims "ABCDEF1234" "a a a a a a a a a a a a"
            "polkadot" wd wm d h1 h2 h3⟩

/-! ## Claim C9 -/

/-- Claim C9: `generate_wallet_from_mnemonic` fails with the word-count error
    exactly when the input does not split on whitespace into 12 tokens, and
    succeeds on any 12-token input (no word-list or checksum check). -/
theorem c9_word_count_validation (P : CryptoPrims) (s chain : String) :
    ((strSplitWhitespace s).length = 12 →
      ∃ w, generate_wallet_from_mnemonic P s chain = .ok w) ∧
    ((strSplitWhitespace s).length ≠ 12 →
      generate_wallet_from_mnemonic P s chain =
        .error (wordCountError (strSplitWhitespace s).length)) := by
  constructor
  · intro h
    exact ⟨_, mnemonic_flow_of_12 P s chain h⟩
  · intro h
    exact mnemonic_flow_of_not_12 P s chain h

/-- Witness for C9 at a 12-token input made of non-word-list tokens and at a
    2-token input. -/
theorem c9_witness :
    (∃ w, generate_wallet_from_mnemonic dummyPrims "q q q q q q q q q q q q" "" = .ok w) ∧
    generate_wallet_from_mnemonic dummyPrims "only two" "" =
      .error (wordCountError (strSplitWhitespace "only two").length) :=
  ⟨(c9_word_count_validation dummyPrims "q q q q q q q q q q q q" "").1 (by decide),
   (c9_word_count_validation dummyPrims "only two" "").2 (by decide)⟩

/-! ## Claim C3 -/

/-- The 64-byte `x ‖ y` coordinate encoding of `seed * G` — what the standard
    Ethereum address construction hashes (the 65-byte uncompressed SEC1 key
    with its `0x04` marker stripped). -/
def uncompressed64 (seed : Bytes) : Bytes :=
  match jacToAffine (mulG (scalarOfSeed seed)) with
  | none => []
  | some (x, y) => natToBytesBE 32 x ++ natToBytesBE 32 y

/-- Claim C3 counterexample.  First conjunct: on the Ethereum path there is
    no 65-byte `U` with the published public key equal to `0x`-hex of `U` and
    the address equal to the Keccak of `U` minus its marker — the published
    key is 34 bytes (`0x04` prepended to the 33-byte COMPRESSED key), so its
    hex is 70 characters, not 132.  Second conjunct: with the real secp256k1
    public-key derivation, the produced address differs from the standard
    Ethereum address (Keccak-256 over the 64-byte `x ‖ y` encoding). -/
theorem c3_counterexample :
    (¬ ∀ w, generate_wallet_from_device_id dummyPrims "ABCDEF1234" "ethereum" = .ok w →
        ∃ U : Bytes, U.length = 65 ∧ w.publicKey = "0x" ++ hexEncode U ∧
          w.address = "0x" ++ hexEncode ((keccak256 U.tail).drop 12)) ∧
    (generate_wallet_from_mnemonic secpPrims "a b c d e f g h i j k l" "ethereum").toOption.map
        WalletRecord.address ≠
      some ("0x" ++ hexEncode ((keccak256 (uncompressed64
        (sha256 (strBytes "a b c d e f g h i j k l")))).drop 12)) := by
  constructor
  · intro hclaim
    cases hok : generate_wallet_from_device_id dummyPrims "ABCDEF1234" "ethereum" with
    | error e =>
      have hsome : (generate_wallet_from_device_id dummyPrims "ABCDEF1234"
          "ethereum").toOption.isSome = true := by decide
      rw [hok] at hsome
      simp [Except.toOption] at hsome
    | ok w =>
      obtain ⟨U, hU, hpk, _⟩ := hclaim w hok
      have hlen : w.publicKey.length = 70 := by
        have h70 : (generate_wallet_from_device_id dummyPrims "ABCDEF1234"
            "ethereum").toOption.map (fun r => r.publicKey.length) = some 70 := by decide
        rw [hok] at h70
        simpa [Except.toOption] using h70
      rw [hpk, String.length_append, hexEncode_length, hU,
        show ("0x" : String).length = 2 from rfl] at hlen
      omega
  · decide

/-- Claim C3 (amended): on the Ethereum path the published public key is
    `0x04` prepended to the 33-byte COMPRESSED key (34 bytes, 70 hex
    characters), and the address is `0x` plus the hex of the last 20 bytes of
    the Keccak-256 digest of the 33-byte compressed key itself; the `0x04`
    strip branch of `generate_ethereum_address` never fires because a
    compressed key starts with `0x02`/`0x03`. -/
theorem c3_ethereum_address_shape (P : CryptoPrims) (dev chain : String)
    (w : WalletRecord) (hwf : PrimsWF P)
    (hd : generate_wallet_from_device_id P dev chain = .ok w)
    (hcb : chainBranchIsEthereum chain = true) :
    w.publicKey = "0x" ++ hexEncode (4 :: P.publicOfSeed (sha256 (strBytes w.mnemonic))) ∧
    w.address = "0x" ++ hexEncode
      ((keccak256 (P.publicOfSeed (sha256 (strBytes w.mnemonic)))).drop 12) := by
  obtain ⟨hvalid, ws, hws, hmn, hct, hpk, hsk, had⟩ := device_flow_ok hd
  rw [hpk, had, keyTripleFor_eth P _ chain hcb, hmn]
  have hne : ((P.publicOfSeed (sha256 (strBytes (joinWords ws)))).headD 0 == 4) = false := by
    rcases hwf.2.1 (sha256 (strBytes (joinWords ws))) with h | h <;> rw [h] <;> rfl
  simp only [ethereumKeyTriple, generate_ethereum_address]
  rw [hne]
  simp only [Bool.false_eq_true, if_false]
  simp

/-- Witness for C3 at the empty chain selector (the Ethereum default). -/
theorem c3_witness :
    ∃ w, generate_wallet_from_device_id dummyPrims "ABCDEF1234" "" = .ok w ∧
      (w.publicKey = "0x" ++ hexEncode (4 :: dummyPrims.publicOfSeed
          (sha256 (strBytes w.mnemonic))) ∧
       w.address = "0x" ++ hexEncode ((keccak256 (dummyPrims.publicOfSeed
          (sha256 (strBytes w.mnemonic)))).drop 12)) := by
  cases hok : generate_wallet_from_device_id dummyPrims "ABCDEF1234" "" with
  | error e =>
    have hsome : (generate_wallet_from_device_id dummyPrims "ABCDEF1234"
        "").toOption.isSome = true := by decide
    rw [hok] at hsome
    simp [Except.toOption] at hsome
  | ok w =>
    exact ⟨w, rfl, c3_ethereum_address_shape dummyPrims "ABCDEF1234" "" w
      dummyPrims_wf hok (by decide)⟩

/-! ## Claim C4 -/

/-- Claim C4 counterexample: the device-id flow with the unrecognized
    selector "zcash" succeeds but returns a different record from the same
    flow with "ethereum" — already the private key fields differ (bare hex
    versus `0x`-prefixed hex). -/
theorem c4_counterexample :
    (generate_wallet_from_device_id dummyPrims "ABCDEF1234" "zcash").toOption.isSome
        = true ∧
    (generate_wallet_from_device_id dummyPrims "ABCDEF1234" "zcash").toOption.map
        WalletRecord.privateKey ≠
      (generate_wallet_from_device_id dummyPrims "ABCDEF1234" "ethereum").toOption.map
        WalletRecord.privateKey := by
  constructor
  · decide
  · decide

/-- Claim C4 (amended): a non-empty selector that is not case-insensitively
    "ethereum", "polkadot" or "kusama" takes the fallback match arm, whose
    output coincides with the polkadot-selector record in mnemonic, public
    key, private key and address; only the chain-type field differs, echoing
    the input selector verbatim.  The fallback does NOT match the
    ethereum-branch record. -/
theorem c4_fallback_matches_polkadot (P : CryptoPrims) (dev chain : String)
    (w : WalletRecord)
    (hne : chainBranchIsEthereum chain = false)
    -- `hnp`/`hnk` pin the claim's quantification domain (selectors that are
    -- not polkadot/kusama either); the conclusion holds without them because
    -- the fallback arm and the polkadot arm have identical bodies.
    (hnp : (rustToLowercase chain == "polkadot") = false)
    (hnk : (rustToLowercase chain == "kusama") = false)
    (hd : generate_wallet_from_device_id P dev chain = .ok w) :
    ∃ w', generate_wallet_from_device_id P dev "polkadot" = .ok w' ∧
      w.mnemonic = w'.mnemonic ∧ w.publicKey = w'.publicKey ∧
      w.privateKey = w'.privateKey ∧ w.address = w'.address ∧
      w.chainType = chain := by
  obtain ⟨hvalid, ws, hws, hmn, hct, hpk, hsk, had⟩ := device_flow_ok hd
  refine ⟨_, device_flow_of_valid P dev "polkadot" ws hvalid hws, ?_, ?_, ?_, ?_, ?_⟩
  · exact hmn
  · rw [hpk, keyTripleFor_not_eth P _ chain hne,
      keyTripleFor_not_eth P _ "polkadot" (by decide)]
  · rw [hsk, keyTripleFor_not_eth P _ chain hne,
      keyTripleFor_not_eth P _ "polkadot" (by decide)]
  · rw [had, keyTripleFor_not_eth P _ chain hne,
      keyTripleFor_not_eth P _ "polkadot" (by decide)]
  · rw [hct, normalizeChainType_of_not_eth chain hne]

/-- Witness for C4 at the selector "zcash". -/
theorem c4_witness :
    ∃ w, generate_wallet_from_device_id dummyPrims "ABCDEF1234" "zcash" = .ok w ∧
      ∃ w', generate_wallet_from_device_id dummyPrims "ABCDEF1234" "polkadot" = .ok w' ∧
        w.mnemonic = w'.mnemonic ∧ w.publicKey = w'.publicKey ∧
        w.privateKey = w'.privateKey ∧ w.address = w'.address ∧
        w.chainType = "zcash" := by
  cases hok : generate_wallet_from_device_id dummyPrims "ABCDEF1234" "zcash" with
  | error e =>
    have hsome : (generate_wallet_from_device_id dummyPrims "ABCDEF1234"
        "zcash").toOption.isSome = true := by decide
    rw [hok] at hsome
    simp [Except.toOption] at hsome
  | ok w =>
    exact ⟨w, rfl, c4_fallback_matches_polkadot dummyPrims "ABCDEF1234" "zcash" w
      (by decide) (by decide) (by decide) hok⟩

/-! ## Claim C5 -/

/-- The success direction of the decrypt flow. -/
theorem decrypt_flow_of_12 (P : CryptoPrims) (s : String) (hne : (s == "") = false)
    (h : (strSplitWhitespace s).length = 12) :
    decrypt_and_generate_mnemonic P s = .ok
      { mnemonic := s,
        publicKey := "0x" ++ hexEncode (4 :: P.publicOfSeed (sha256 (strBytes s))),
        privateKey := "0x" ++ hexEncode (sha256 (strBytes s)),
        address := generate_ethereum_address (P.publicOfSeed (sha256 (strBytes s))),
        success := true, chainType := "ethereum" } := by
  simp only [decrypt_and_generate_mnemonic, hne, Bool.false_eq_true, if_false, h]
  simp

/-- The failure direction of the decrypt flow on a non-empty input. -/
theorem decrypt_flow_of_not_12 (P : CryptoPrims) (s : String) (hne : (s == "") = false)
    (h : (strSplitWhitespace s).length ≠ 12) :
    decrypt_and_generate_mnemonic P s =
      .error (wordCountError (strSplitWhitespace s).length) := by
  simp only [decrypt_and_generate_mnemonic, hne, Bool.false_eq_true, if_false]
  rw [if_pos]
  simpa using h

/-- The conclusion of claim C5 at primitives `P` and input `s`. -/
def DecryptAgreesWithMnemonicFlow (P : CryptoPrims) (s : String) : Prop :=
  (decrypt_and_generate_mnemonic P "" = .error "WASM: Input is empty") ∧
  ((strSplitWhitespace s).length ≠ 12 →
    generate_wallet_from_mnemonic P s "ethereum" =
      .error (wordCountError (strSplitWhitespace s).length) ∧
    decrypt_and_generate_mnemonic P s =
      .error (wordCountError (strSplitWhitespace s).length)) ∧
  ((strSplitWhitespace s).length = 12 →
    ∃ w d, generate_wallet_from_mnemonic P s "ethereum" = .ok w ∧
      decrypt_and_generate_mnemonic P s = .ok d ∧
      d.mnemonic = w.mnemonic ∧ d.publicKey = w.publicKey ∧
      d.privateKey = w.privateKey ∧ d.address = w.address ∧
      d.chainType = "ethereum" ∧ d.success = true)

/-- Claim C5: for every non-empty input, `decrypt_and_generate_mnemonic`
    fails on exactly the same word-count condition as
    `generate_wallet_from_mnemonic` with chain "ethereum" (with the same
    error message), and on success returns the same mnemonic, public key,
    private key and address values, with the chain selector fixed to
    "ethereum" and `success = true`; the empty input is rejected by a
    dedicated check before the word count. -/
theorem c5_decrypt_refines_mnemonic_flow (P : CryptoPrims) (s : String)
    (hs : s ≠ "") : DecryptAgreesWithMnemonicFlow P s := by
  have hne : (s == "") = false := by simpa using hs
  refine ⟨rfl, ?_, ?_⟩
  · intro h
    exact ⟨mnemonic_flow_of_not_12 P s "ethereum" h, decrypt_flow_of_not_12 P s hne h⟩
  · intro h
    refine ⟨_, _, mnemonic_flow_of_12 P s "ethereum" h, decrypt_flow_of_12 P s hne h,
      rfl, ?_, ?_, ?_, rfl, rfl⟩
    · rw [keyTripleFor_eth P _ "ethereum" (by decide)]
      rfl
    · rw [keyTripleFor_eth P _ "ethereum" (by decide)]
      rfl
    · rw [keyTripleFor_eth P _ "ethereum" (by decide)]
      rfl

/-- Witness for C5 at a concrete 12-token input. -/
theorem c5_witness : DecryptAgreesWithMnemonicFlow dummyPrims "b b b b b b b b b b b b" :=
  c5_decrypt_refines_mnemonic_flow dummyPrims "b b b b b b b b b b b b" (by decide)

/-! ## Claim C8 -/

/-- Claim C8: in every generation flow the 32-byte seed is exactly the
    SHA-256 digest of the raw bytes of the mnemonic phrase — one hash
    application, no iterated key stretching, no passphrase salt — as exposed
    by the private-key field, which is the hex encoding of that digest
    (with the `0x` prefix exactly on the Ethereum path). -/
theorem c8_seed_is_single_sha256 (P : CryptoPrims) (dev s chain : String)
    (wd wm : WalletRecord) (d : DecryptRecord) :
    (generate_wallet_from_device_id P dev chain = .ok wd →
      wd.privateKey = (if chainBranchIsEthereum chain then "0x" else "") ++
        hexEncode (sha256 (strBytes wd.mnemonic))) ∧
    (generate_wallet_from_mnemonic P s chain = .ok wm →
      wm.privateKey = (if chainBranchIsEthereum chain then "0x" else "") ++
        hexEncode (sha256 (strBytes s))) ∧
    (decrypt_and_generate_mnemonic P s = .ok d →
      d.privateKey = "0x" ++ hexEncode (sha256 (strBytes s))) := by
  refine ⟨?_, ?_, ?_⟩
  · intro h
    obtain ⟨hvalid, ws, hws, hmn, hct, hpk, hsk, had⟩ := device_flow_ok h
    rw [hsk, hmn]
    cases hcb : chainBranchIsEthereum chain with
    | true =>
      rw [keyTripleFor_eth P _ chain hcb]
      rfl
    | false =>
      rw [keyTripleFor_not_eth P _ chain hcb]
      simp only [Bool.false_eq_true, if_false]
      rfl
  · intro h
    obtain ⟨hlen, hmnm, hctm, hpkm, hskm, hadm⟩ := mnemonic_flow_ok h
    rw [hskm]
    cases hcb : chainBranchIsEthereum chain with
    | true =>
      rw [keyTripleFor_eth P _ chain hcb]
      rfl
    | false =>
      rw [keyTripleFor_not_eth P _ chain hcb]
      simp only [Bool.false_eq_true, if_false]
      rfl
  · intro h
    simp only [decrypt_and_generate_mnemonic] at h
    split at h
    · exact absurd h (by simp)
    · split at h
      · exact absurd h (by simp)
      · obtain rfl : _ = d := Except.ok.inj h
        rfl

/-- Witness for C8: all three flows at concrete inputs. -/
theorem c8_witness :
    ∃ wd wm d,
      generate_wallet_from_device_id dummyPrims "ABCDEF1234" "kusama" = .ok wd ∧
      generate_wallet_from_mnemonic dummyPrims "c c c c c c c c c c c c" "kusama" = .ok wm ∧
      decrypt_and_generate_mnemonic dummyPrims "c c c c c c c c c c c c" = .ok d ∧
      wd.privateKey = (if chainBranchIsEthereum "kusama" then "0x" else "") ++
        hexEncode (sha256 (strBytes wd.mnemonic)) ∧
      wm.privateKey = (if chainBranchIsEthereum "kusama" then "0x" else "") ++
        hexEncode (sha256 (strBytes "c c c c c c c c c c c c")) ∧
      d.privateKey = "0x" ++ hexEncode (sha256 (strBytes "c c c c c c c c c c c c")) := by
  cases h1 : generate_wallet_from_device_id dummyPrims "ABCDEF1234" "kusama" with
  | error e =>
    have hsome : (generate_wallet_from_device_id dummyPrims "ABCDEF1234"
        "kusama").toOption.isSome = true := by decide
    rw [h1] at hsome
    simp [Except.toOption] at hsome
  | ok wd =>
    cases h2 : generate_wallet_from_mnemonic dummyPrims "c c c c c c c c c c c c" "kusama" with
    | error e =>
      have hsome : (generate_wallet_from_mnemonic dummyPrims "c c c c c c c c c c c c"
          "kusama").toOption.isSome = true := by decide
      rw [h2] at hsome
      simp [Except.toOption] at hsome
    | ok wm =>
      cases h3 : decrypt_and_generate_mnemonic dummyPrims "c c c c c c c c c c c c" with
      | error e =>
        have hsome : (decrypt_and_generate_mnemonic dummyPrims
            "c c c c c c c c c c c c").toOption.isSome = true := by decide
        rw [h3] at hsome
        simp [Except.toOption] at hsome
      | ok d =>
        obtain ⟨ha, hb, hc⟩ := c8_seed_is_single_sha256 dummyPrims "ABCDEF1234"
          "c c c c c c c c c c c c" "kusama" wd wm d
        exact ⟨wd, wm, d, rfl, rfl, rfl, ha h1, hb h2, hc h3⟩

/-! ## Claim C6 -/

/-- Claim C6: if the device-id flow succeeds, feeding its emitted mnemonic
    into the mnemonic flow with the same chain selector succeeds and returns
    the same public key, private key and address. -/
theorem c6_mnemonic_roundtrip (P : CryptoPrims) (dev chain : String) (w : WalletRecord)
    (hwf : PrimsWF P)
    (hd : generate_wallet_from_device_id P dev chain = .ok w) :
    ∃ w', generate_wallet_from_mnemonic P w.mnemonic chain = .ok w' ∧
      w'.publicKey = w.publicKey ∧ w'.privateKey = w.privateKey ∧
      w'.address = w.address := by
  obtain ⟨hvalid, ws, hws, hmn, hct, hpk, hsk, had⟩ := device_flow_ok hd
  obtain ⟨hlen12, hgood⟩ := hwf.2.2.2.2.2 _ _ hws
  have hsplit : strSplitWhitespace (joinWords ws) = ws := splitWs_joinWords ws hgood
  have h12 : (strSplitWhitespace w.mnemonic).length = 12 := by
    rw [hmn, hsplit, hlen12]
  refine ⟨_, mnemonic_flow_of_12 P w.mnemonic chain h12, ?_, ?_, ?_⟩
  · rw [hpk, hmn]
  · rw [hsk, hmn]
  · rw [had, hmn]

/-- Witness for C6 with the concrete model primitives. -/
theorem c6_witness :
    ∃ w, generate_wallet_from_device_id dummyPrims "user567890" "polkadot" = .ok w ∧
      ∃ w', generate_wallet_from_mnemonic dummyPrims w.mnemonic "polkadot" = .ok w' ∧
        w'.publicKey = w.publicKey ∧ w'.privateKey = w.privateKey ∧
        w'.address = w.address := by
  cases hok : generate_wallet_from_device_id dummyPrims "user567890" "polkadot" with
  | error e =>
    have hsome : (generate_wallet_from_device_id dummyPrims "user567890"
        "polkadot").toOption.isSome = true := by decide
    rw [hok] at hsome
    simp [Except.toOption] at hsome
  | ok w =>
    exact ⟨w, rfl, c6_mnemonic_roundtrip dummyPrims "user567890" "polkadot" w
      dummyPrims_wf hok⟩

/-! ## Claim C7 -/

theorem startsWith0x_0x (s : String) : startsWith0x ("0x" ++ s) = true := by
  unfold startsWith0x
  rw [data_0x_append]
  rfl

theorem data_0x_drop2 (s : String) : ("0x" ++ s).data.drop 2 = s.data := by
  rw [data_0x_append]
  rfl

theorem strBytes_0x_hex_length (bs : Bytes) :
    (strBytes ("0x" ++ hexEncode bs)).length = 2 + 2 * bs.length := by
  rw [strBytes_append, List.length_append, strBytes_hexEncode_length]
  rfl

/-- Evaluating `sign_message` on a well-formed `0x`-prefixed 32-byte hex
    private key. -/
theorem sign_message_eval (P : CryptoPrims) (seed : Bytes) (msg : String)
    (h32 : seed.length = 32) (hb : ∀ b ∈ seed, b < 256) :
    sign_message P ("0x" ++ hexEncode seed) msg =
      .ok ("0x" ++ hexEncode (P.ecdsaSign seed (strBytes msg))) := by
  unfold sign_message
  have hlen : (strBytes ("0x" ++ hexEncode seed)).length = 66 := by
    rw [strBytes_0x_hex_length, h32]
  rw [startsWith0x_0x, hlen]
  simp only [Bool.not_true, bne_self_eq_false, Bool.or_false, Bool.false_eq_true, if_false]
  rw [data_0x_drop2, hexDecode_hexEncode seed hb]
  simp [h32]

/-- Evaluating `verify_signature` on the `0x04`-prefixed hex of a 33-byte
    compressed key and a well-formed 65-byte hex signature: the checks pass,
    the last 33 decoded bytes (the compressed key itself) are used, and the
    result is the primitive's verdict. -/
theorem verify_signature_eval (P : CryptoPrims) (pk sig : Bytes) (msg : String)
    (hpk33 : pk.length = 33) (hpkb : ∀ b ∈ pk, b < 256)
    (hsig65 : sig.length = 65) (hsigb : ∀ b ∈ sig, b < 256) :
    verify_signature P ("0x" ++ hexEncode (4 :: pk)) msg ("0x" ++ hexEncode sig) =
      .ok (P.ecdsaVerify sig (strBytes msg) pk)
        (if P.ecdsaVerify sig (strBytes msg) pk then "Signature is valid"
         else "Signature is invalid") := by
  unfold verify_signature
  have hpkb' : ∀ b ∈ (4 :: pk), b < 256 := by
    intro b hb
    rcases List.mem_cons.mp hb with rfl | hb
    · omega
    · exact hpkb b hb
  rw [startsWith0x_0x]
  simp only [Bool.not_true, Bool.false_eq_true, if_false]
  rw [data_0x_drop2, hexDecode_hexEncode _ hpkb']
  simp only [List.length_cons, hpk33]
  rw [if_neg (by omega)]
  rw [startsWith0x_0x]
  simp only [Bool.not_true, Bool.false_eq_true, if_false]
  rw [data_0x_drop2, hexDecode_hexEncode sig hsigb]
  simp only [hsig65, bne_self_eq_false, Bool.false_eq_true, if_false]
  simp [List.drop]

/-- Claim C7 counterexample: a wallet generated on the polkadot path carries
    a private key with no `0x` prefix, which `sign_message` rejects — so it
    is not true that signing succeeds for every generated wallet. -/
theorem c7_counterexample :
    (generate_wallet_from_device_id dummyPrims "ABCDEF1234" "polkadot").toOption.isSome
        = true ∧
    (generate_wallet_from_device_id dummyPrims "ABCDEF1234" "polkadot").toOption.map
        (fun w => (sign_message dummyPrims w.privateKey "hello").toOption.isSome) =
      some false := by
  constructor
  · decide
  · decide

/-- Claim C7 (amended): for Ethereum-path wallets (shown for one wallet from
    the device-id flow and one from the mnemonic flow), `sign_message` with
    the wallet's private key succeeds, and `verify_signature` returns the
    primitive ECDSA verdict: `success = true` against the signed message and
    the signer's public key, and `success = false` against a different
    message or the other wallet's public key, given that the ECDSA primitive
    behaves so at those points (true of secp256k1 signatures outside
    astronomically unlikely collisions).  Wallets from the
    polkadot/kusama/fallback arms are rejected by `sign_message` outright
    (see the counterexample). -/
theorem c7_sign_verify_roundtrip (P : CryptoPrims)
    (dev chain s2 chain2 msg msg2 : String) (w w2 : WalletRecord)
    (hwf : PrimsWF P)
    (hd : generate_wallet_from_device_id P dev chain = .ok w)
    (hcb : chainBranchIsEthereum chain = true)
    (hm2 : generate_wallet_from_mnemonic P s2 chain2 = .ok w2)
    (hcb2 : chainBranchIsEthereum chain2 = true)
    (hv1 : P.ecdsaVerify (P.ecdsaSign (sha256 (strBytes w.mnemonic)) (strBytes msg))
      (strBytes msg) (P.publicOfSeed (sha256 (strBytes w.mnemonic))) = true)
    (hv2 : P.ecdsaVerify (P.ecdsaSign (sha256 (strBytes w.mnemonic)) (strBytes msg))
      (strBytes msg2) (P.publicOfSeed (sha256 (strBytes w.mnemonic))) = false)
    (hv3 : P.ecdsaVerify (P.ecdsaSign (sha256 (strBytes w.mnemonic)) (strBytes msg))
      (strBytes msg) (P.publicOfSeed (sha256 (strBytes w2.mnemonic))) = false) :
    sign_message P w.privateKey msg =
      .ok ("0x" ++ hexEncode (P.ecdsaSign (sha256 (strBytes w.mnemonic)) (strBytes msg))) ∧
    verify_signature P w.publicKey msg
        ("0x" ++ hexEncode (P.ecdsaSign (sha256 (strBytes w.mnemonic)) (strBytes msg))) =
      .ok true "Signature is valid" ∧
    verify_signature P w.publicKey msg2
        ("0x" ++ hexEncode (P.ecdsaSign (sha256 (strBytes w.mnemonic)) (strBytes msg))) =
      .ok false "Signature is invalid" ∧
    verify_signature P w2.publicKey msg
        ("0x" ++ hexEncode (P.ecdsaSign (sha256 (strBytes w.mnemonic)) (strBytes msg))) =
      .ok false "Signature is invalid" := by
  obtain ⟨hvalid, ws, hws, hmn, hct, hpk, hsk, had⟩ := device_flow_ok hd
  obtain ⟨hlen2, hmn2, hct2, hpk2, hsk2, had2⟩ := mnemonic_flow_ok hm2
  rw [hmn] at hv1 hv2 hv3
  rw [hmn2] at hv3
  rw [hsk, hpk, keyTripleFor_eth P _ chain hcb]
  rw [hpk2, keyTripleFor_eth P _ chain2 hcb2]
  rw [hmn]
  constructor
  · exact sign_message_eval P _ msg (sha256_length _) (sha256_lt _)
  refine ⟨?_, ?_, ?_⟩
  · show verify_signature P ("0x" ++ hexEncode (4 :: P.publicOfSeed _)) msg _ = _
    rw [verify_signature_eval P _ _ msg (hwf.1 _) (fun b hb => hwf.2.2.1 _ b hb)
      (hwf.2.2.2.1 _ _) (fun b hb => hwf.2.2.2.2.1 _ _ b hb), hv1]
    simp
  · show verify_signature P ("0x" ++ hexEncode (4 :: P.publicOfSeed _)) msg2 _ = _
    rw [verify_signature_eval P _ _ msg2 (hwf.1 _) (fun b hb => hwf.2.2.1 _ b hb)
      (hwf.2.2.2.1 _ _) (fun b hb => hwf.2.2.2.2.1 _ _ b hb), hv2]
    simp
  · show verify_signature P ("0x" ++ hexEncode (4 :: P.publicOfSeed _)) msg _ = _
    rw [verify_signature_eval P _ _ msg (hwf.1 _) (fun b hb => hwf.2.2.1 _ b hb)
      (hwf.2.2.2.1 _ _) (fun b hb => hwf.2.2.2.2.1 _ _ b hb), hv3]
    simp

/-- Witness for C7: two concrete Ethereum-path wallets, the messages "hello"
    and "world", and the computable model primitives. -/
theorem c7_witness :
    ∃ w w2,
      generate_wallet_from_device_id dummyPrims "ABCDEF1234" "ethereum" = .ok w ∧
      generate_wallet_from_mnemonic dummyPrims "x x x x x x x x x x x x" "" = .ok w2 ∧
      sign_message dummyPrims w.privateKey "hello" =
        .ok ("0x" ++ hexEncode (dummyPrims.ecdsaSign (sha256 (strBytes w.mnemonic))
          (strBytes "hello"))) ∧
      verify_signature dummyPrims w.publicKey "hello"
          ("0x" ++ hexEncode (dummyPrims.ecdsaSign (sha256 (strBytes w.mnemonic))
            (strBytes "hello"))) = .ok true "Signature is valid" ∧
      verify_signature dummyPrims w.publicKey "world"
          ("0x" ++ hexEncode (dummyPrims.ecdsaSign (sha256 (strBytes w.mnemonic))
            (strBytes "hello"))) = .ok false "Signature is invalid" ∧
      verify_signature dummyPrims w2.publicKey "hello"
          ("0x" ++ hexEncode (dummyPrims.ecdsaSign (sha256 (strBytes w.mnemonic))
            (strBytes "hello"))) = .ok false "Signature is invalid" := by
  cases h1 : generate_wallet_from_device_id dummyPrims "ABCDEF1234" "ethereum" with
  | error e =>
    have hsome : (generate_wallet_from_device_id dummyPrims "ABCDEF1234"
        "ethereum").toOption.isSome = true := by decide
    rw [h1] at hsome
    simp [Except.toOption] at hsome
  | ok w =>
    cases h2 : generate_wallet_from_mnemonic dummyPrims "x x x x x x x x x x x x" "" with
    | error e =>
      have hsome : (generate_wallet_from_mnemonic dummyPrims "x x x x x x x x x x x x"
          "").toOption.isSome = true := by decide
      rw [h2] at hsome
      simp [Except.toOption] at hsome
    | ok w2 =>
      have hmnw : w.mnemonic = "abc abc abc abc abc abc abc abc abc abc abc abc" := by
        have h := show (generate_wallet_from_device_id dummyPrims "ABCDEF1234"
            "ethereum").toOption.map WalletRecord.mnemonic =
            some "abc abc abc abc abc abc abc abc abc abc abc abc" from by decide
        rw [h1] at h
        simpa [Except.toOption] using h
      have hmnw2 : w2.mnemonic = "x x x x x x x x x x x x" := by
        have h := show (generate_wallet_from_mnemonic dummyPrims "x x x x x x x x x x x x"
            "").toOption.map WalletRecord.mnemonic =
            some "x x x x x x x x x x x x" from by decide
        rw [h2] at h
        simpa [Except.toOption] using h
      obtain ⟨hs, hva, hvb, hvc⟩ :=
        c7_sign_verify_roundtrip dummyPrims "ABCDEF1234" "ethereum"
          "x x x x x x x x x x x x" "" "hello" "world" w w2 dummyPrims_wf h1 (by decide)
          h2 (by decide)
          (by rw [hmnw]; decide) (by rw [hmnw]; decide) (by rw [hmnw, hmnw2]; decide)
      exact ⟨w, w2, rfl, rfl, hs, hva, hvb, hvc⟩

/-! ## Claim C10 -/

/-- Claim C10: two inputs with the same 12 tokens in the same order,
    differing only in whitespace (a doubled separator space), both pass
    validation, yet hash to different seeds — and, with the real secp256k1
    public-key derivation, yield different private keys, public keys and
    addresses: the seed is the SHA-256 of the raw input string, not of the
    re-joined tokens. -/
theorem c10_whitespace_changes_wallet :
    strSplitWhitespace "a b c d e f g h i j k l" =
      strSplitWhitespace "a  b c d e f g h i j k l" ∧
    "a b c d e f g h i j k l" ≠ "a  b c d e f g h i j k l" ∧
    ("a b c d e f g h i j k l").data.filter (fun c => !(isRustWhitespace c)) =
      ("a  b c d e f g h i j k l").data.filter (fun c => !(isRustWhitespace c)) ∧
    sha256 (strBytes "a b c d e f g h i j k l") ≠
      sha256 (strBytes "a  b c d e f g h i j k l") ∧
    (generate_wallet_from_mnemonic secpPrims "a b c d e f g h i j k l"
      "ethereum").toOption.isSome = true ∧
    (generate_wallet_from_mnemonic secpPrims "a  b c d e f g h i j k l"
      "ethereum").toOption.isSome = true ∧
    (generate_wallet_from_mnemonic secpPrims "a b c d e f g h i j k l"
        "ethereum").toOption.map WalletRecord.privateKey ≠
      (generate_wallet_from_mnemonic secpPrims "a  b c d e f g h i j k l"
        "ethereum").toOption.map WalletRecord.privateKey ∧
    (generate_wallet_from_mnemonic secpPrims "a b c d e f g h i j k l"
        "ethereum").toOption.map WalletRecord.publicKey ≠
      (generate_wallet_from_mnemonic secpPrims "a  b c d e f g h i j k l"
        "ethereum").toOption.map WalletRecord.publicKey ∧
    (generate_wallet_from_mnemonic secpPrims "a b c d e f g h i j k l"
        "ethereum").toOption.map WalletRecord.address ≠
      (generate_wallet_from_mnemonic secpPrims "a  b c d e f g h i j k l"
        "ethereum").toOption.map WalletRecord.address := by
  refine ⟨by decide, by decide, by decide, by decide, by decide, by decide,
    by decide, by decide, by decide⟩
